import Mathlib

/-!
Verification development for the BOT-BU chat backend: a shallow embedding of
the retrieval, query-expansion, three-tier answering, response-cache and
rate-limit logic, with theorems checking the natural-language specification
against the code.

Modelling conventions:
  - JavaScript numbers are modelled as real numbers (for embedding vectors,
    where `Math.sqrt` occurs) or rationals (for keyword scores), extended with
    NaN and the two infinities (`JsNum`), and JS division including the
    division-by-zero cases is modelled by `jsDiv`.
  - JS strings are Lean `String`s; `toLowerCase`, `trim`, `split` on the
    whitespace class and `includes` are modelled over the ASCII range, which
    covers every string these endpoints compare.
  - External asynchronous calls (the embedding API, the generative model) are
    oracles passed in as parameters: a call either returns a value or throws
    a message (`Outcome`).
  - The mutable module state of the rate limiter is passed explicitly; the
    wall clock is passed as the pair of a millisecond count `now` and the
    `toDateString` rendering `today`.  File persistence (`saveState`) only
    mirrors the in-memory state and is not modelled separately.
  - Handlers additionally return a trace of the externally visible actions
    they performed, in order, so that ordering and absence claims
    (rate check before record before tier calls, no model call on a cache
    hit) can be stated.
-/

namespace BotBu

/-- A JavaScript number that may be NaN or an infinity, over a carrier. -/
inductive JsNum (α : Type) where
  | nan : JsNum α
  | posInf : JsNum α
  | negInf : JsNum α
  | val : α → JsNum α
deriving DecidableEq

/-- JS division over the reals: `0/0 = NaN`, `x/0 = ±Infinity` for nonzero x. -/
noncomputable def jsDivR (num den : ℝ) : JsNum ℝ :=
  if den = 0 then
    if num = 0 then .nan else if 0 < num then .posInf else .negInf
  else .val (num / den)

/-- JS division over the rationals: `0/0 = NaN`, `x/0 = ±Infinity` for nonzero x. -/
def jsDivQ (num den : ℚ) : JsNum ℚ :=
  if den = 0 then
    if num = 0 then .nan else if 0 < num then .posInf else .negInf
  else .val (num / den)

/-- JS `x >= y` against a plain number: false when x is NaN. -/
noncomputable def jsGeR (x : JsNum ℝ) (y : ℝ) : Bool :=
  match x with
  | .nan => false
  | .posInf => true
  | .negInf => false
  | .val v => decide (y ≤ v)

/-- JS `x > y` against a plain number: false when x is NaN. -/
def jsGtQ (x : JsNum ℚ) (y : ℚ) : Bool :=
  match x with
  | .nan => false
  | .posInf => true
  | .negInf => false
  | .val v => decide (y < v)

/-- ASCII case folding of one character; `String.prototype.toLowerCase`
restricted to the ASCII range used by this code base. -/
def asciiLower (c : Char) : Char :=
  if 'A' ≤ c ∧ c ≤ 'Z' then Char.ofNat (c.toNat + 32) else c

/-- Model of `message.toLowerCase()` over ASCII. -/
def jsToLower (s : String) : String :=
  String.mk (s.toList.map asciiLower)

/-- The JS whitespace class as it occurs in these strings (ASCII part). -/
def isJsWs (c : Char) : Bool :=
  c = ' ' ∨ c = '\t' ∨ c = '\n' ∨ c = '\r' ∨ c = '\x0b' ∨ c = '\x0c'

/-- Drop leading whitespace. -/
def dropWsLeft : List Char → List Char
  | [] => []
  | c :: cs => if isJsWs c then dropWsLeft cs else c :: cs

/-- Model of `String.prototype.trim`. -/
def jsTrim (s : String) : String :=
  String.mk ((dropWsLeft (dropWsLeft s.toList.reverse).reverse))

/-- One maximal run of non-whitespace characters and the rest. -/
def takeWord : List Char → List Char × List Char
  | [] => ([], [])
  | c :: cs =>
    if isJsWs c then ([], c :: cs)
    else
      let (w, r) := takeWord cs
      (c :: w, r)

/-- Helper for `splitWs`, with fuel bounding the recursion by the length. -/
def splitWsAux : Nat → List Char → List String
  | 0, _ => []
  | _, [] => []
  | fuel + 1, c :: cs =>
    if isJsWs c then splitWsAux fuel cs
    else
      let (w, r) := takeWord (c :: cs)
      String.mk w :: splitWsAux fuel r

/-- Model of `s.split(/\s+/)` as used here: the maximal non-whitespace runs of `s`, in
order.  (JS also yields one empty token after leading whitespace; every use in
this code base either checks membership of a fixed non-empty word or filters
by a positive length, so that token is never observable.) -/
def splitWs (s : String) : List String :=
  splitWsAux s.toList.length s.toList

/-- Whether `pat` occurs starting at the head of `l`. -/
def charsStartWith : List Char → List Char → Bool
  | [], _ => true
  | _ :: _, [] => false
  | p :: ps, c :: cs => p = c && charsStartWith ps cs

/-- Whether `pat` occurs somewhere inside `l`. -/
def charsContain (l pat : List Char) : Bool :=
  match l with
  | [] => charsStartWith pat []
  | c :: cs => charsStartWith pat (c :: cs) || charsContain cs pat

/-- Model of `hay.includes(needle)` for JS strings. -/
def jsIncludes (hay needle : String) : Bool :=
  charsContain hay.toList needle.toList

def isAsciiDigit (c : Char) : Bool := '0' ≤ c ∧ c ≤ '9'

def isAsciiLetter (c : Char) : Bool :=
  ('A' ≤ c ∧ c ≤ 'Z') ∨ ('a' ≤ c ∧ c ≤ 'z')

/-- The leading whitespace run of a list (greedy `\s*`). -/
def takeWsRun : List Char → List Char × List Char
  | [] => ([], [])
  | c :: cs =>
    if isJsWs c then
      let (w, r) := takeWsRun cs
      (c :: w, r)
    else ([], c :: cs)

/-- Try to match the course-number regex `/CS\s*(\d{3}[A-Z]?)/i` at the head
of the list: `C` or `c`, `S` or `s`, any whitespace, exactly three digits and
an optional trailing letter (the `i` flag makes `[A-Z]` case-insensitive).
Returns the matched characters and the remainder.  The regex has no
backtracking here: `\s*` is maximal and can never trade characters with
`\d{3}`, since no character is both whitespace and a digit. -/
def matchCourseAt (l : List Char) : Option (List Char × List Char) :=
  match l with
  | c :: s :: rest =>
    if asciiLower c = 'c' ∧ asciiLower s = 's' then
      let (ws, r1) := takeWsRun rest
      match r1 with
      | d1 :: d2 :: d3 :: r2 =>
        if isAsciiDigit d1 ∧ isAsciiDigit d2 ∧ isAsciiDigit d3 then
          match r2 with
          | t :: r3 =>
            if isAsciiLetter t then
              some (c :: s :: ws ++ [d1, d2, d3, t], r3)
            else
              some (c :: s :: ws ++ [d1, d2, d3], t :: r3)
          | [] => some (c :: s :: ws ++ [d1, d2, d3], [])
        else none
      | _ => none
    else none
  | _ => none

/-- Helper for the global regex scan, with fuel bounding the recursion. -/
def scanCoursesAux : Nat → List Char → List String
  | 0, _ => []
  | _, [] => []
  | fuel + 1, l@(_ :: rest) =>
    match matchCourseAt l with
    | some (m, r) => String.mk m :: scanCoursesAux fuel r
    | none => scanCoursesAux fuel rest

/-- Model of `message.match(/CS\s*(\d{3}[A-Z]?)/gi) || []`: every non-overlapping
match of the course-number pattern, left to right. -/
def extractCourses (s : String) : List String :=
  scanCoursesAux s.toList.length s.toList

/-- Model of `[...new Set(xs)]`: de-duplication keeping the first occurrence of each
element, in encounter order. -/
def dedupFirst (seen : List String) : List String → List String
  | [] => []
  | x :: xs =>
    if x ∈ seen then dedupFirst seen xs
    else x :: dedupFirst (x :: seen) xs

/-! ### Rate limit tracker (`src/lib/rateLimitTracker.js`)

The module state is the `state` object; `saveState` persists a copy of the
in-memory state and is out of scope (the spec excludes the persistence
plumbing), so each operation here maps a state to the next state.  The wall
clock enters as `now` (`Date.now()`, milliseconds) and `today`
(`new Date().toDateString()`).
-/

structure RateState where
  requestsToday : Nat
  requestsThisMinute : Nat
  currentDay : String
  currentMinute : Nat
  lastRequestTime : Nat
  requestTimestamps : List Nat
  totalRequests : Nat
  firstRequestDate : String
deriving DecidableEq

/-- Model of `createDefaultState()`, with the clock readings passed in. -/
def createDefaultState (now : Nat) (today nowIso : String) : RateState :=
  { requestsToday := 0
    requestsThisMinute := 0
    currentDay := today
    currentMinute := now / 60000
    lastRequestTime := 0
    requestTimestamps := []
    totalRequests := 0
    firstRequestDate := nowIso }

def LIMITS_RPM : Nat := 1000
def LIMITS_RPD : Nat := 10000
def LIMITS_MIN_REQUEST_INTERVAL : Nat := 1000

/-- The `retryAfter` field of a denial: the string `tomorrow` or a number of
seconds. -/
inductive RetryAfter where
  | tomorrow : RetryAfter
  | seconds : Nat → RetryAfter
deriving DecidableEq

/-- The two shapes `canMakeRequest` returns. -/
inductive CheckResult where
  | denied (reason message : String) (retryAfter : RetryAfter)
  | allowedWith (remainingDaily remainingMinute : Int)
deriving DecidableEq

def CheckResult.allowed : CheckResult → Bool
  | .denied _ _ _ => false
  | .allowedWith _ _ => true

def CheckResult.reason : CheckResult → Option String
  | .denied r _ _ => some r
  | .allowedWith _ _ => none

def CheckResult.retryAfter : CheckResult → Option RetryAfter
  | .denied _ _ r => some r
  | .allowedWith _ _ => none

def CheckResult.message : CheckResult → String
  | .denied _ m _ => m
  | .allowedWith _ _ => ""

/-- The day reset, minute reset and sliding-window pruning that both
`canMakeRequest` and `getUsageStats` perform, line for line, at their start
(the code duplicates this block).  The timestamp comparison
`ts > oneMinuteAgo` is over JS numbers, so it is taken in `Int` (for
`now < 60000`, `oneMinuteAgo` is negative and every timestamp passes). -/
def refresh (st : RateState) (now : Nat) (today : String) : RateState :=
  let st1 := if st.currentDay ≠ today then
      { st with requestsToday := 0, currentDay := today }
    else st
  let st2 := if st1.currentMinute ≠ now / 60000 then
      { st1 with requestsThisMinute := 0, currentMinute := now / 60000,
                 requestTimestamps := [] }
    else st1
  let ts := st2.requestTimestamps.filter fun t => Int.ofNat t > (now : Int) - 60000
  { st2 with requestTimestamps := ts, requestsThisMinute := ts.length }

/-- Model of `canMakeRequest()`: returns the mutated state and the check result. -/
def canMakeRequest (st : RateState) (now : Nat) (today : String) :
    RateState × CheckResult :=
  let st3 := refresh st now today
  if st3.requestsToday ≥ LIMITS_RPD then
    (st3, .denied "daily_limit_exceeded"
      "Daily request limit reached for Bot Bu (10,000 requests/day)"
      .tomorrow)
  else if st3.requestsThisMinute ≥ LIMITS_RPM then
    (st3, .denied "minute_limit_exceeded"
      "Too many requests per minute for Bot Bu (1,000 requests/min)"
      (.seconds (60 - (now % 60000) / 1000)))
  else
    (st3, .allowedWith ((LIMITS_RPD : Int) - st3.requestsToday)
      ((LIMITS_RPM : Int) - st3.requestsThisMinute))

/-- Model of `recordRequest()`: increments the counters, stamps the time, appends to
the sliding window. -/
def recordRequest (st : RateState) (now : Nat) : RateState :=
  { st with
    requestsToday := st.requestsToday + 1
    requestsThisMinute := st.requestsThisMinute + 1
    totalRequests := st.totalRequests + 1
    lastRequestTime := now
    requestTimestamps := st.requestTimestamps ++ [now] }

/-- The two shapes `shouldThrottle` returns. -/
inductive ThrottleResult where
  | throttledFor (waitTime : Nat) (message : String)
  | clear
deriving DecidableEq

def ThrottleResult.throttled : ThrottleResult → Bool
  | .throttledFor _ _ => true
  | .clear => false

def ThrottleResult.waitTime : ThrottleResult → Option Nat
  | .throttledFor w _ => some w
  | .clear => none

/-- Model of `shouldThrottle()`: denies a request arriving less than
`MIN_REQUEST_INTERVAL` after the last recorded one.  `timeSinceLastRequest`
is signed in JS, so it is taken in `Int`. -/
def shouldThrottle (st : RateState) (now : Nat) : ThrottleResult :=
  let timeSinceLastRequest : Int := (now : Int) - st.lastRequestTime
  if timeSinceLastRequest < LIMITS_MIN_REQUEST_INTERVAL then
    let waitTime := (((LIMITS_MIN_REQUEST_INTERVAL : Int) - timeSinceLastRequest
        + 999) / 1000).toNat
    .throttledFor waitTime
      ("Please wait " ++ toString waitTime ++
        (if waitTime ≠ 1 then " seconds" else " second") ++
        " before sending another message")
  else .clear

/-- The usage snapshot `getUsageStats` assembles (percentages as exact
rationals). -/
structure UsageStats where
  requestsToday : Nat
  requestsThisMinute : Nat
  totalRequests : Nat
  firstRequestDate : String
  limitDaily : Nat
  limitMinute : Nat
  percentDaily : ℚ
  percentMinute : ℚ
  remainingDaily : Int
  remainingMinute : Int
  status : String
deriving DecidableEq

/-- Model of `getUsageStatus()`. -/
def getUsageStatus (st : RateState) : String :=
  let dailyPercent : ℚ := (st.requestsToday : ℚ) / (LIMITS_RPD : ℚ) * 100
  if dailyPercent ≥ 95 then "critical"
  else if dailyPercent ≥ 80 then "warning"
  else "healthy"

/-- Model of `getUsageStats()`: performs the same resets and pruning as
`canMakeRequest` on the shared state, then reads the snapshot off it.
Returns the mutated state and the snapshot. -/
def getUsageStats (st : RateState) (now : Nat) (today : String) :
    RateState × UsageStats :=
  let st3 := refresh st now today
  (st3,
    { requestsToday := st3.requestsToday
      requestsThisMinute := st3.requestsThisMinute
      totalRequests := st3.totalRequests
      firstRequestDate := st3.firstRequestDate
      limitDaily := LIMITS_RPD
      limitMinute := LIMITS_RPM
      percentDaily := (st3.requestsToday : ℚ) / (LIMITS_RPD : ℚ) * 100
      percentMinute := (st3.requestsThisMinute : ℚ) / (LIMITS_RPM : ℚ) * 100
      remainingDaily := (LIMITS_RPD : Int) - st3.requestsToday
      remainingMinute := (LIMITS_RPM : Int) - st3.requestsThisMinute
      status := getUsageStatus st3 })

/-- The usage endpoint body (`GET` of the usage route): warning flags and the
snapshot, derived from `getUsageStats` alone. -/
structure UsageResponse where
  requestsToday : Nat
  dailyLimit : Nat
  dailyRemaining : Int
  requestsThisMinute : Nat
  minuteLimit : Nat
  minuteRemaining : Int
  dailyWarning : Bool
  dailyCritical : Bool
  minuteWarning : Bool
  minuteCritical : Bool
  status : String
deriving DecidableEq

/-- The usage endpoint `GET` handler: calls `getUsageStats` and assembles the
JSON body (the rounded display percentages are omitted; the raw percentages
they are rounded from are in `UsageStats`). -/
def usageGET (st : RateState) (now : Nat) (today : String) :
    RateState × UsageResponse :=
  let (st3, stats) := getUsageStats st now today
  let dailyWarning := stats.percentDaily > 80
  let dailyCritical := stats.percentDaily > 95
  let minuteWarning := stats.percentMinute > 80
  let minuteCritical := stats.percentMinute > 95
  (st3,
    { requestsToday := stats.requestsToday
      dailyLimit := stats.limitDaily
      dailyRemaining := stats.remainingDaily
      requestsThisMinute := stats.requestsThisMinute
      minuteLimit := stats.limitMinute
      minuteRemaining := stats.remainingMinute
      dailyWarning := dailyWarning
      dailyCritical := dailyCritical
      minuteWarning := minuteWarning
      minuteCritical := minuteCritical
      status := if dailyCritical ∨ minuteCritical then "critical"
        else if dailyWarning ∨ minuteWarning then "warning" else "healthy" })

/-! ### Three-tier chat endpoint (the multi-tier `route.js`)

Each awaited external call either returns a value or throws; it enters the
model as an `Outcome` oracle.  The generative model is opaque: a tier passes
it a prompt and receives text (plus, for tier 3, grounding metadata), so each
tier takes its model reply as a parameter.
-/

/-- The result of one awaited external call: a value, or a thrown error
carrying its message. -/
inductive Outcome (α : Type) where
  | ok : α → Outcome α
  | thrown : String → Outcome α
deriving DecidableEq

def TIER1_INSUFFICIENT_SIGNAL : String := "TIER1_INSUFFICIENT"
def TIER2_INSUFFICIENT_SIGNAL : String := "TIER2_INSUFFICIENT"

/-- What `getInternalContext` resolves being non-null: the context block, the
source file names and the chunk count. -/
structure InternalData where
  context : String
  sources : List String
  chunkCount : Nat
deriving DecidableEq

/-- The metadata object attached to a successful tier answer; fields absent
for a given tier are `none`. -/
structure TierMeta where
  tier : Nat
  tierName : String
  internalDocsUsed : Bool
  googleSearchUsed : Option Bool := none
  internalSources : Option (List String) := none
  chunksUsed : Option Nat := none
  sources : Option (List String) := none
deriving DecidableEq

/-- A tier outcome: `{success: true, response, metadata}` or
`{success: false, reason, error?}`. -/
inductive TierResult where
  | success (response : String) (metadata : TierMeta)
  | failure (reason : String) (error : Option String)
deriving DecidableEq

def TierResult.isSuccess : TierResult → Bool
  | .success _ _ => true
  | .failure _ _ => false

def TierResult.reasonOf : TierResult → String
  | .success _ _ => ""
  | .failure r _ => r

/-- Strip `/\.(txt|pdf|docx)$/i` from a filename. -/
def stripDocExt (filename : String) : String :=
  let chars := filename.toList
  let low := chars.map asciiLower
  if charsStartWith ".txt".toList (low.drop (low.length - 4)) ∧ chars.length ≥ 4 then
    String.mk (chars.take (chars.length - 4))
  else if charsStartWith ".pdf".toList (low.drop (low.length - 4)) ∧ chars.length ≥ 4 then
    String.mk (chars.take (chars.length - 4))
  else if charsStartWith ".docx".toList (low.drop (low.length - 5)) ∧ chars.length ≥ 5 then
    String.mk (chars.take (chars.length - 5))
  else filename

/-- The friendly-name mapping tier 1 applies to each source filename. -/
def sanitizeSource (filename : String) : String :=
  let baseName := stripDocExt filename
  if baseName = "DeleteLater" then "University Staff Directory"
  else if baseName = "cs_exam_schedule" then "Computer Science Exam Schedule"
  else if baseName = "department_contacts" then "Department Contact Information"
  else if baseName = "dining_hours_policy" then "Dining Services Information"
  else "Internal University Documents"

/-- Model of `tryTier1`, the internal-documents tier.  `internal` is the awaited
`getInternalContext` call (null modelled as `none`, and a falsy — empty —
`context` field also fails the guard); `model` is the awaited model call.
Any throw inside the `try` is caught and becomes reason `error`. -/
def tryTier1 (internal : Outcome (Option InternalData))
    (model : Outcome String) : TierResult :=
  match internal with
  | .thrown e => .failure "error" (some e)
  | .ok none => .failure "no_documents" none
  | .ok (some d) =>
    if d.context = "" then .failure "no_documents" none
    else
      match model with
      | .thrown e => .failure "error" (some e)
      | .ok text =>
        if jsTrim text = TIER1_INSUFFICIENT_SIGNAL then
          .failure "insufficient_context" none
        else
          .success text
            { tier := 1
              tierName := "Internal Knowledge Base"
              internalDocsUsed := true
              internalSources := some (d.sources.map sanitizeSource)
              chunksUsed := some d.chunkCount }

/-- Model of `tryTier2`, the built-in-knowledge tier. -/
def tryTier2 (model : Outcome String) : TierResult :=
  match model with
  | .thrown e => .failure "error" (some e)
  | .ok text =>
    if jsTrim text = TIER2_INSUFFICIENT_SIGNAL then
      .failure "needs_current_info" none
    else
      .success text
        { tier := 2
          tierName := "AI Built-in Knowledge"
          internalDocsUsed := false
          googleSearchUsed := some false }

/-- A tier-3 model reply: the text and the `web?.uri` of each grounding
chunk (absent metadata or chunk list modelled as `none`). -/
structure Tier3Reply where
  text : String
  groundingUris : Option (List (Option String))
deriving DecidableEq

/-- Model of `tryTier3`, the web-search tier; every non-thrown reply succeeds, with
the cited source URIs extracted from the grounding metadata. -/
def tryTier3 (model : Outcome Tier3Reply) : TierResult :=
  match model with
  | .thrown e => .failure "error" (some e)
  | .ok reply =>
    let sources := (reply.groundingUris.getD []).filterMap id
    .success reply.text
      { tier := 3
        tierName := "Google Search Grounding"
        internalDocsUsed := false
        googleSearchUsed := some true
        sources := some sources }

/-- One message of the conversation history. -/
structure HistMsg where
  type : String
  content : String
deriving DecidableEq

/-- The externally visible actions of the tiered handler, in order. -/
inductive Action where
  | throttleCheck
  | rateCheck
  | record
  | tierCall (n : Nat)
deriving DecidableEq

/-- The response shapes of the tiered handler, one constructor per
`NextResponse.json` call site, carrying the literal `status` and
`rateLimited` fields where present. -/
inductive TieredResponse where
  | badRequest (error : String) (status : Nat)
  | throttled429 (error message : String) (waitTime : Nat)
      (rateLimited : Bool) (status : Nat)
  | limited429 (error reason : String) (retryAfter : RetryAfter)
      (rateLimited : Bool) (message : String) (status : Nat)
  | answer (message : String) (metadata : TierMeta)
  | exhausted (message : String) (tier1Reason tier2Reason tier3Reason : String)
deriving DecidableEq

def renderRetryAfter : RetryAfter → String
  | .tomorrow => "tomorrow"
  | .seconds n => toString n ++ " seconds"

def ALL_TIERS_FAILED_MESSAGE : String :=
  "I apologize, but I\x27m having trouble finding an answer to your question. Please try rephrasing or contact support."

/-- The tiered `POST` handler: validation, throttle check, rate check,
`recordRequest`, then the 1 → 2 → 3 cascade stopping at the first success.
Returns the response, the final rate-limit state and the trace of actions.
The oracles `t1docs`, `t1model`, `t2model`, `t3model` stand for the awaited
calls inside the three tiers. -/
def tieredPOST (message : String) (conversationHistory : List HistMsg)
    (st : RateState) (now : Nat) (today : String)
    (t1docs : Outcome (Option InternalData)) (t1model t2model : Outcome String)
    (t3model : Outcome Tier3Reply) :
    TieredResponse × RateState × List Action :=
  let _ := conversationHistory
  if jsTrim message = "" then
    (.badRequest "Message is required" 400, st, [])
  else
    let throttleCheckR := shouldThrottle st now
    match throttleCheckR with
    | .throttledFor waitTime msg =>
      (.throttled429 "Please wait before sending another message" msg waitTime
        true 429, st, [.throttleCheck])
    | .clear =>
      let (st1, rateLimitCheck) := canMakeRequest st now today
      match rateLimitCheck with
      | .denied reason cmessage retryAfter =>
        (.limited429 cmessage reason retryAfter true
          ("⚠️ Rate limit reached. " ++ cmessage ++ ". Please try again in "
            ++ renderRetryAfter retryAfter ++ ".") 429,
          st1, [.throttleCheck, .rateCheck])
      | .allowedWith _ _ =>
        let st2 := recordRequest st1 now
        let tier1Result := tryTier1 t1docs t1model
        match tier1Result with
        | .success response metadata =>
          (.answer response metadata, st2,
            [.throttleCheck, .rateCheck, .record, .tierCall 1])
        | .failure tier1Reason _ =>
          let tier2Result := tryTier2 t2model
          match tier2Result with
          | .success response metadata =>
            (.answer response metadata, st2,
              [.throttleCheck, .rateCheck, .record, .tierCall 1, .tierCall 2])
          | .failure tier2Reason _ =>
            let tier3Result := tryTier3 t3model
            match tier3Result with
            | .success response metadata =>
              (.answer response metadata, st2,
                [.throttleCheck, .rateCheck, .record, .tierCall 1, .tierCall 2,
                 .tierCall 3])
            | .failure tier3Reason _ =>
              (.exhausted ALL_TIERS_FAILED_MESSAGE tier1Reason tier2Reason
                tier3Reason, st2,
                [.throttleCheck, .rateCheck, .record, .tierCall 1, .tierCall 2,
                 .tierCall 3])

/-! ### Vector store (`src/lib/vectorStore.js`)

The knowledge base is the chunk list loaded once at process start; it enters
each function as a parameter.  Embedding vectors are lists of reals and
`Math.sqrt` is the real square root.  `Array.prototype.sort` with the
comparator `(a, b) => b.similarity - a.similarity` is, by the ECMAScript
specification, the unique stable descending reordering once the comparator is
consistent (it is: all compared scores are plain numbers after the score
filters), and is realised here by `List.insertionSort` with the relation
that puts `a` before `b` exactly when the key of `b` is not larger.
-/

/-- One knowledge-base chunk. -/
structure Chunk where
  id : String := ""
  title : String := ""
  category : String := ""
  content : String := ""
  keywords : Option (List String) := none
  embedding : Option (List ℝ) := none

/-- A ranked search result: the chunk spread together with the score fields
the producing search attached (`similarity` from the vector path,
`matchScore` and the matched-word list — source field `matches`, a reserved
word in Lean — from the keyword path). -/
structure RankedChunk where
  chunk : Chunk
  similarity : Option (JsNum ℝ) := none
  matchScore : Option (JsNum ℚ) := none
  matchedWords : List String := []

/-- Model of `vecA.reduce((sum, a, i) => sum + a * vecB[i], 0)`: only evaluated under
the equal-length guard, where it is the dot product. -/
def dotProduct (a b : List ℝ) : ℝ :=
  (a.zip b).foldl (fun s p => s + p.1 * p.2) 0

/-- Model of `vec.reduce((sum, x) => sum + x * x, 0)`. -/
def sumSq (a : List ℝ) : ℝ :=
  a.foldl (fun s x => s + x * x) 0

/-- Model of `cosineSimilarity(vecA, vecB)`.  The JS guard `!vecA || !vecB` only
catches null/undefined arguments (an empty array is truthy), which cannot
arise here; the length-mismatch branch returns 0, and the division is JS
division, so two zero-magnitude vectors of equal length produce NaN. -/
noncomputable def cosineSimilarity (vecA vecB : List ℝ) : JsNum ℝ :=
  if vecA.length ≠ vecB.length then .val 0
  else
    jsDivR (dotProduct vecA vecB)
      (Real.sqrt (sumSq vecA) * Real.sqrt (sumSq vecB))

/-- The filter-map-filter pipeline of `findRelevantChunks` before sorting:
keep chunks that have an embedding, apply the optional category filter,
attach the similarity, drop scores below `minScore` (a NaN similarity fails
the `>=` comparison and is dropped). -/
noncomputable def scoredChunks (queryEmbedding : List ℝ) (chunks : List Chunk)
    (minScore : ℝ) (category : Option String) : List RankedChunk :=
  (((chunks.filter fun c => c.embedding.isSome).filter fun c =>
      match category with
      | none => true
      | some cat => c.category = cat).map fun c =>
      { chunk := c
        similarity := some (cosineSimilarity queryEmbedding (c.embedding.getD [])) }).filter
    fun r => jsGeR (r.similarity.getD .nan) minScore

/-- The sort key the comparator `b.similarity - a.similarity` compares: after
the `minScore` filter every similarity present is a plain number. -/
noncomputable def simKey (r : RankedChunk) : ℝ :=
  match r.similarity with
  | some (.val v) => v
  | _ => 0

instance : IsTotal RankedChunk (fun a b => simKey b ≤ simKey a) :=
  ⟨fun a b => le_total (simKey b) (simKey a)⟩

instance : IsTrans RankedChunk (fun a b => simKey b ≤ simKey a) :=
  ⟨fun _ _ _ h1 h2 => le_trans h2 h1⟩

/-- The pure part of `findRelevantChunks` once the query embedding is
obtained: score, sort descending (stably) and truncate to `topK`. -/
noncomputable def rankChunks (queryEmbedding : List ℝ) (chunks : List Chunk)
    (topK : Nat) (minScore : ℝ) (category : Option String) : List RankedChunk :=
  ((scoredChunks queryEmbedding chunks minScore category).insertionSort
      fun a b => simKey b ≤ simKey a).take topK

/-- Model of `findRelevantChunks(query, options)`: the awaited
`generateQueryEmbedding` either yields the query vector or throws; a throw
is re-thrown to the caller. -/
noncomputable def findRelevantChunks (embed : Outcome (List ℝ))
    (chunks : List Chunk) (topK : Nat) (minScore : ℝ)
    (category : Option String) : Outcome (List RankedChunk) :=
  match embed with
  | .thrown e => .thrown e
  | .ok queryEmbedding => .ok (rankChunks queryEmbedding chunks topK minScore category)

/-- Whether a query word hits a chunk keyword list
(`chunk.keywords?.includes(word)`; an absent list is falsy). -/
def keywordHit (keywords : Option (List String)) (w : String) : Bool :=
  match keywords with
  | some ks => ks.contains w
  | none => false

/-- The sort key of the keyword path (`b.matchScore - a.matchScore`). -/
def kwKey (r : RankedChunk) : ℚ :=
  match r.matchScore with
  | some (.val v) => v
  | _ => 0

/-- Model of `keywordSearch(query, topK)` over the given chunk list: tokenize into
lowercase words longer than 2 characters, count substring and keyword hits,
score by `(content + 2*title + 1.5*keyword) / numWords` (JS division: an
empty word list makes every score `0/0 = NaN`), keep positive scores, sort
descending, truncate. -/
def keywordSearch (query : String) (chunks : List Chunk) (topK : Nat) :
    List RankedChunk :=
  let queryWords := (splitWs (jsToLower query)).filter fun w => w.length > 2
  let scored := chunks.map fun c =>
    let contentLower := jsToLower c.content
    let titleLower := jsToLower c.title
    let contentMatches := (queryWords.filter fun w => jsIncludes contentLower w).length
    let titleMatches := (queryWords.filter fun w => jsIncludes titleLower w).length
    let keywordMatches := (queryWords.filter fun w => keywordHit c.keywords w).length
    { chunk := c
      matchScore := some (jsDivQ
        ((contentMatches : ℚ) + (titleMatches : ℚ) * 2 + (keywordMatches : ℚ) * (3/2))
        (queryWords.length : ℚ))
      matchedWords := queryWords.filter fun w =>
        jsIncludes contentLower w || jsIncludes titleLower w || keywordHit c.keywords w }
  ((scored.filter fun r => jsGtQ (r.matchScore.getD .nan) 0).insertionSort
      fun a b => kwKey b ≤ kwKey a).take topK

/-! ### RAG chat endpoint (`src/app/api/chat-rag/route.js`, first copy)

The in-memory cache is an association list with `Map` lookup/replace
semantics; the wall clock is one `now` per request (`processingTime`, a
wall-clock duration, is not modelled).  The two generative-model calls are
oracles over the retry-attempt index; the prompt strings built from the
retrieved context flow only into those oracles, so their text is not
materialised.  The handler additionally returns the trace of search and
model actions it performed.
-/

def CACHE_TTL : Nat := 3600000

/-- Model of `getCacheKey(message)`, that is `message.toLowerCase().trim()`. -/
def getCacheKey (message : String) : String :=
  jsTrim (jsToLower message)

/-- Whether a thrown error message carries a transient signature. -/
def isRetryableMsg (msg : String) : Bool :=
  jsIncludes msg "503" || jsIncludes msg "overloaded" || jsIncludes msg "429"

/-- The observable run of `retryWithBackoff`: the settled result (`none`
only if the loop body never ran, i.e. `maxRetries = 0`), the number of
attempts made and the list of backoff delays slept, in order. -/
structure RetryRun (α : Type) where
  result : Option (Outcome α)
  attempts : Nat
  delays : List Nat
deriving DecidableEq

/-- The retry loop of `retryWithBackoff` from attempt `i`; `remaining`
counts the loop iterations still available (`maxRetries - i`), making the
recursion structural.  `result = none` only when the loop body never runs. -/
def retryGo (fn : Nat → Outcome α) (maxRetries : Nat) :
    Nat → Nat → RetryRun α
  | 0, _ => ⟨none, 0, []⟩
  | remaining + 1, i =>
    match fn i with
    | .ok v => ⟨some (.ok v), 1, []⟩
    | .thrown msg =>
      let isLastRetry := i = maxRetries - 1
      if isLastRetry ∨ isRetryableMsg msg = false then
        ⟨some (.thrown msg), 1, []⟩
      else
        let rest := retryGo fn maxRetries remaining (i + 1)
        ⟨rest.result, rest.attempts + 1, 2 ^ i * 1000 :: rest.delays⟩

/-- Model of `retryWithBackoff(fn, maxRetries)`. -/
def retryWithBackoff (fn : Nat → Outcome α) (maxRetries : Nat) : RetryRun α :=
  retryGo fn maxRetries maxRetries 0

/-- The fixed singular-referring word list. -/
def singularWords : List String := ["that", "it", "this"]

/-- The fixed plural-referring word list. -/
def pluralWords : List String := ["all", "others", "them", "these", "those"]

/-- Model of `message.toLowerCase().split(/\s+/)`. -/
def lowerTokens (message : String) : List String :=
  splitWs (jsToLower message)

/-- Model of `singularWords.some(word => tokens.includes(word))`. -/
def isSingularMsg (message : String) : Bool :=
  singularWords.any fun w => (lowerTokens message).contains w

/-- Model of `pluralWords.some(word => tokens.includes(word))`. -/
def isPluralMsg (message : String) : Bool :=
  pluralWords.any fun w => (lowerTokens message).contains w

/-- The course numbers found in the last `lookback` history messages, in
message order (`conversationHistory.slice(-lookback)` then the per-message
regex matches pushed in order). -/
def historyCourses (lookback : Nat) (conversationHistory : List HistMsg) :
    List String :=
  (conversationHistory.drop (conversationHistory.length - lookback)).foldl
    (fun acc m => acc ++ extractCourses m.content) []

/-- The `courseNumbers` array of the contextual branch: the current
courses of the current message first, then the courses of the looked-back history
(lookback 2 when singular, else 4). -/
def expandCourseNumbers (message : String) (conversationHistory : List HistMsg) :
    List String :=
  let lookbackMessages := if isSingularMsg message then 2 else 4
  extractCourses message ++ historyCourses lookbackMessages conversationHistory

/-- The query expander of both RAG route copies (identical code): inject
course tokens according to the singular/plural classification and the
conversation history. -/
def expandQuery (message : String) (conversationHistory : List HistMsg) : String :=
  let currentCourses := extractCourses message
  let isSingular := isSingularMsg message
  let isPlural := isPluralMsg message
  if (isSingular ∨ isPlural) ∧ conversationHistory.length > 0 then
    let courseNumbers := expandCourseNumbers message conversationHistory
    if courseNumbers.length > 0 then
      let uniqueCourses := dedupFirst [] courseNumbers
      let coursesToUse :=
        if isSingular then [uniqueCourses.getLastD ""] else uniqueCourses
      String.intercalate " " coursesToUse ++ " " ++ message
    else message
  else if currentCourses.length > 0 then
    String.intercalate " " currentCourses ++ " schedule timing location " ++ message
  else message

structure RagMeta where
  chunksFound : Nat
  searchMethod : String
  cached : Bool
  usedFallback : Bool
deriving DecidableEq

/-- The payload a cache entry stores (the `sources` array also stored there
is derived display data the endpoint never returns; it is omitted). -/
structure RagData where
  response : String
  metadata : RagMeta
deriving DecidableEq

structure CacheEntry where
  data : RagData
  timestamp : Nat
deriving DecidableEq

/-- Model of `cache.get(key)` over the association-list representation. -/
def cacheGet (cache : List (String × CacheEntry)) (k : String) :
    Option CacheEntry :=
  (cache.find? fun p => p.1 = k).map (·.2)

/-- Model of `cache.set(key, value)`: replaces any previous entry for the key. -/
def cacheSet (cache : List (String × CacheEntry)) (k : String) (v : CacheEntry) :
    List (String × CacheEntry) :=
  (k, v) :: cache.filter fun p => p.1 ≠ k

/-- The externally visible actions of the RAG handler. -/
inductive RagAction where
  | vectorSearch
  | keywordFallback
  | modelCall
  | searchModelCall
deriving DecidableEq

/-- The response shapes of the RAG handler, one constructor per
`NextResponse.json` call site on the modelled paths. -/
inductive RagResponse where
  | badRequest (error : String) (status : Nat)
  | cachedHit (message : String) (metadata : RagMeta)
  | overloadedApology (message error : String) (usedFallback : Bool)
  | answer (message : String) (metadata : RagMeta)
deriving DecidableEq

/-- What one RAG request leaves behind: the response, the cache afterwards
and the action trace. -/
structure RagResult where
  response : RagResponse
  cache : List (String × CacheEntry)
  trace : List RagAction
deriving DecidableEq

/-- The sentinel phrase whose presence in the model reply triggers the
google-search fallback step. -/
def NO_KB_INFO_PHRASE : String := "I don\x27t have that specific information"

def OVERLOADED_MESSAGE : String :=
  "I\x27m having trouble processing your request right now. The AI service is temporarily overloaded. Please try again in a moment."

/-- The truthiness test `relevantChunks[0]?.similarity` deciding the
`searchMethod` metadata: absent, NaN and 0 are falsy. -/
noncomputable def firstSimilarityTruthy : Option RankedChunk → Bool
  | none => false
  | some rc =>
    match rc.similarity with
    | none => false
    | some .nan => false
    | some .posInf => true
    | some .negInf => true
    | some (.val v) => decide (v ≠ 0)

/-- The recompute path of the RAG handler (everything after a cache miss):
expand the query, search (vector with keyword fallback), call the model with
retries, optionally run the google-search step, assemble the metadata and
unconditionally store the pipeline response in the cache; the model-failure
path with no retrieved chunks returns the fixed apology without caching. -/
noncomputable def ragCompute (cache : List (String × CacheEntry))
    (cacheKey message : String) (conversationHistory : List HistMsg)
    (now : Nat) (embed : Outcome (List ℝ)) (chunks : List Chunk)
    (mainModel searchModel : Nat → Outcome String) : RagResult :=
  let searchQuery := expandQuery message conversationHistory
  let searched :=
    match findRelevantChunks embed chunks 10 (1 / 4) none with
    | .ok l => (l, [RagAction.vectorSearch])
    | .thrown _ =>
      (keywordSearch searchQuery chunks 10,
        [RagAction.vectorSearch, RagAction.keywordFallback])
  let relevantChunks := searched.1
  let finish := fun (response : String) (usedFallback : Bool)
      (trace : List RagAction) =>
    let metadata : RagMeta :=
      { chunksFound := relevantChunks.length
        searchMethod :=
          if firstSimilarityTruthy relevantChunks.head? then "vector"
          else "keyword"
        cached := false
        usedFallback := usedFallback }
    RagResult.mk (.answer response metadata)
      (cacheSet cache cacheKey ⟨⟨response, metadata⟩, now⟩)
      trace
  match (retryWithBackoff mainModel 3).result with
  | some (.ok text) =>
    if relevantChunks.length = 0 ∨ jsIncludes text NO_KB_INFO_PHRASE then
      match (retryWithBackoff searchModel 3).result with
      | some (.ok searchText) =>
        finish searchText false
          (searched.2 ++ [.modelCall, .searchModelCall])
      | _ =>
        finish text false (searched.2 ++ [.modelCall, .searchModelCall])
    else
      finish text false (searched.2 ++ [.modelCall])
  | _ =>
    match relevantChunks with
    | c :: _ =>
      finish
        ("Based on our knowledge base:\n\n" ++ c.chunk.content ++
          "\n\n(Note: AI processing temporarily unavailable, showing raw information)")
        true (searched.2 ++ [.modelCall])
    | [] =>
      ⟨.overloadedApology OVERLOADED_MESSAGE "Gemini overloaded" true, cache,
        searched.2 ++ [.modelCall]⟩

/-- The RAG `POST` handler: validation, cache lookup keyed by the
lowercase-trimmed raw message, serve a fresh entry as a hit marked
`cached: true`, otherwise recompute via `ragCompute`. -/
noncomputable def ragPOST (cache : List (String × CacheEntry))
    (message : String) (conversationHistory : List HistMsg) (now : Nat)
    (embed : Outcome (List ℝ)) (chunks : List Chunk)
    (mainModel searchModel : Nat → Outcome String) : RagResult :=
  if message = "" then ⟨.badRequest "Invalid message format" 400, cache, []⟩
  else
    let cacheKey := getCacheKey message
    match cacheGet cache cacheKey with
    | some entry =>
      if now - entry.timestamp < CACHE_TTL then
        ⟨.cachedHit entry.data.response { entry.data.metadata with cached := true },
          cache, []⟩
      else
        ragCompute cache cacheKey message conversationHistory now embed chunks
          mainModel searchModel
    | none =>
      ragCompute cache cacheKey message conversationHistory now embed chunks
        mainModel searchModel

/-! ## Theorems -/

theorem refresh_requestsToday_of_day_eq (st : RateState) (now : Nat)
    (today : String) (h : st.currentDay = today) :
    (refresh st now today).requestsToday = st.requestsToday := by
  unfold refresh
  rw [if_neg (by simp [h])]
  dsimp only
  split <;> simp

theorem refresh_rollover (st : RateState) (now : Nat) (today : String)
    (hd : st.currentDay ≠ today) (hm : st.currentMinute ≠ now / 60000) :
    refresh st now today =
      { st with requestsToday := 0, currentDay := today,
                requestsThisMinute := 0, currentMinute := now / 60000,
                requestTimestamps := [] } := by
  simp [refresh, hd, hm]

theorem recordRequest_foldl (times : List Nat) (st : RateState) :
    (times.foldl recordRequest st).requestsToday = st.requestsToday + times.length ∧
    (times.foldl recordRequest st).currentDay = st.currentDay ∧
    (times.foldl recordRequest st).currentMinute = st.currentMinute := by
  induction times generalizing st with
  | nil => simp
  | cons t ts ih =>
    have h := ih (recordRequest st t)
    simp only [List.foldl_cons]
    refine ⟨?_, ?_, ?_⟩
    · rw [h.1]; simp [recordRequest]; ring
    · rw [h.2.1]; simp [recordRequest]
    · rw [h.2.2]; simp [recordRequest]

/-- C4: after `recordRequest` has been invoked `RPD` times within one day
(the daily counter then reads `RPD`), the next `canMakeRequest` on the same
day returns the daily denial with reason `daily_limit_exceeded` and
`retryAfter` `tomorrow`; once the wall-clock day (and hence minute) differs
from the stored one, the same check resets the daily counter and allows the
request. -/
theorem canMakeRequest_daily_limit_and_rollover (st : RateState)
    (times : List Nat) (now now2 : Nat) (today today2 : String)
    (h0 : st.requestsToday = 0) (hday : st.currentDay = today)
    (hlen : times.length = LIMITS_RPD) (hd2 : today2 ≠ today)
    (hm2 : st.currentMinute ≠ now2 / 60000) :
    (canMakeRequest (times.foldl recordRequest st) now today).2 =
      .denied "daily_limit_exceeded"
        "Daily request limit reached for Bot Bu (10,000 requests/day)"
        .tomorrow ∧
    (canMakeRequest (times.foldl recordRequest st) now2 today2).2.allowed = true ∧
    (canMakeRequest (times.foldl recordRequest st) now2 today2).1.requestsToday = 0 := by
  obtain ⟨hT, hD, hM⟩ := recordRequest_foldl times st
  rw [h0, hlen] at hT
  rw [hday] at hD
  constructor
  · have hr : (refresh (times.foldl recordRequest st) now today).requestsToday
        = LIMITS_RPD := by
      rw [refresh_requestsToday_of_day_eq _ _ _ hD, hT]; simp
    simp [canMakeRequest, hr]
  · have hd2' : (times.foldl recordRequest st).currentDay ≠ today2 := by
      rw [hD]; exact fun h => hd2 h.symm
    have hm2' : (times.foldl recordRequest st).currentMinute ≠ now2 / 60000 := by
      rw [hM]; exact hm2
    rw [canMakeRequest, refresh_rollover _ _ _ hd2' hm2']
    simp [LIMITS_RPD, LIMITS_RPM, CheckResult.allowed]

/-- Witness for C4 at a concrete run: a fresh state, 10000 recorded
requests, a same-day check and a next-day check. -/
theorem canMakeRequest_daily_limit_witness :
    (canMakeRequest
        ((List.replicate LIMITS_RPD 0).foldl recordRequest
          (createDefaultState 0 "Mon Jan 01 2024" "start")) 0 "Mon Jan 01 2024").2 =
      .denied "daily_limit_exceeded"
        "Daily request limit reached for Bot Bu (10,000 requests/day)"
        .tomorrow ∧
    (canMakeRequest
        ((List.replicate LIMITS_RPD 0).foldl recordRequest
          (createDefaultState 0 "Mon Jan 01 2024" "start")) 86400000
        "Tue Jan 02 2024").2.allowed = true := by
  have h := canMakeRequest_daily_limit_and_rollover
    (createDefaultState 0 "Mon Jan 01 2024" "start")
    (List.replicate LIMITS_RPD 0) 0 86400000 "Mon Jan 01 2024" "Tue Jan 02 2024"
    rfl rfl (by simp) (by decide) (by decide)
  exact ⟨h.1, h.2.1⟩

/-- C10: a query whose whitespace tokens are all of length at most 2 leaves
the filtered word list empty, every chunk scores `0/0 = NaN`, NaN fails the
`score > 0` filter, and `keywordSearch` returns the empty list (and, being a
total function, never throws). -/
theorem keywordSearch_short_query_empty (query : String) (chunks : List Chunk)
    (topK : Nat)
    (h : (splitWs (jsToLower query)).filter (fun w => w.length > 2) = []) :
    keywordSearch query chunks topK = [] := by
  rw [keywordSearch, h]
  have hfilter :
      (chunks.map fun c =>
          ({ chunk := c
             matchScore := some (jsDivQ ((([] : List String).filter
                 fun w => jsIncludes (jsToLower c.content) w).length +
                 ((([] : List String).filter fun w => jsIncludes (jsToLower c.title) w).length : ℚ) * 2 +
                 ((([] : List String).filter fun w => keywordHit c.keywords w).length : ℚ) * (3 / 2))
               (([] : List String).length : ℚ))
             matchedWords := ([] : List String).filter fun w =>
               jsIncludes (jsToLower c.content) w || jsIncludes (jsToLower c.title) w ||
                 keywordHit c.keywords w } : RankedChunk)).filter
        (fun r => jsGtQ (r.matchScore.getD .nan) 0) = [] := by
    rw [List.filter_eq_nil_iff]
    intro a ha
    rw [List.mem_map] at ha
    obtain ⟨c, _, rfl⟩ := ha
    simp [jsDivQ, jsGtQ]
  simp only [hfilter]
  simp [List.insertionSort]

/-- Witness for C10: the query `hi ok` against a chunk that contains both
words returns nothing. -/
theorem keywordSearch_short_query_witness :
    (splitWs (jsToLower "hi ok")).filter (fun w => w.length > 2) = [] ∧
    keywordSearch "hi ok"
      [{ id := "c1", title := "T", category := "general",
         content := "hi there ok", keywords := some ["hi"] }] 5 = [] :=
  ⟨by decide,
    keywordSearch_short_query_empty "hi ok"
      [{ id := "c1", title := "T", category := "general",
         content := "hi there ok", keywords := some ["hi"] }] 5 (by decide)⟩

theorem retryGo_spec {α : Type} (fn : Nat → Outcome α) (n : Nat) :
    ∀ k i, k = n - i → i < n →
      (1 ≤ (retryGo fn n k i).attempts ∧ i + (retryGo fn n k i).attempts ≤ n) ∧
      (retryGo fn n k i).result = some (fn (i + (retryGo fn n k i).attempts - 1)) ∧
      (retryGo fn n k i).delays =
        (List.range ((retryGo fn n k i).attempts - 1)).map (fun j => 2 ^ (i + j) * 1000) ∧
      (∀ j, j + 1 < (retryGo fn n k i).attempts →
        ∃ m, fn (i + j) = .thrown m ∧ isRetryableMsg m = true) := by
  intro k
  induction k with
  | zero => intro i hk hi; omega
  | succ k ih =>
    intro i hk hi
    rw [retryGo]
    cases hfn : fn i with
    | ok v =>
      dsimp only
      refine ⟨⟨le_refl 1, by omega⟩, ?_, by simp, ?_⟩
      · simp [hfn]
      · intro j hj; omega
    | thrown msg =>
      dsimp only
      by_cases hstop : i = n - 1 ∨ isRetryableMsg msg = false
      · rw [if_pos hstop]
        dsimp only
        refine ⟨⟨le_refl 1, by omega⟩, ?_, by simp, ?_⟩
        · simp [hfn]
        · intro j hj; omega
      · rw [if_neg hstop]
        push_neg at hstop
        have hi' : i + 1 < n := by omega
        have hrec := ih (i + 1) (by omega) hi'
        obtain ⟨⟨ha1, ha2⟩, hres, hdel, htrans⟩ := hrec
        dsimp only
        refine ⟨⟨by omega, by omega⟩, ?_, ?_, ?_⟩
        · rw [hres,
            show i + 1 + (retryGo fn n k (i + 1)).attempts - 1
              = i + ((retryGo fn n k (i + 1)).attempts + 1) - 1 by omega]
        · rw [hdel,
            show (retryGo fn n k (i + 1)).attempts + 1 - 1
              = ((retryGo fn n k (i + 1)).attempts - 1) + 1 by omega,
            List.range_succ_eq_map, List.map_cons, List.map_map]
          simp only [List.cons.injEq]
          refine ⟨by simp, ?_⟩
          · apply List.map_congr_left
            intro j _
            simp only [Function.comp_apply]
            congr 2
            omega
        · intro j hj
          match j with
          | 0 =>
            refine ⟨msg, by simpa using hfn, ?_⟩
            cases hr : isRetryableMsg msg with
            | true => rfl
            | false => exact absurd hr hstop.2
          | j' + 1 =>
            have := htrans j' (by omega)
            obtain ⟨m, hm, hr⟩ := this
            exact ⟨m, by rw [show i + (j' + 1) = i + 1 + j' by omega]; exact hm, hr⟩

/-- C8: `retryWithBackoff` with its default of 3 attempts re-invokes the
call only after a thrown error whose message carries a transient signature
(`503`, `overloaded`, `429`), sleeps `2^i` seconds before re-invoking after
attempt `i` (so the delay doubles each retry), makes between 1 and 3
attempts, settles on the outcome of its last attempt, and propagates a
non-transient first error immediately, with no retry and no delay. -/
theorem retryWithBackoff_spec {α : Type} (fn : Nat → Outcome α) :
    (1 ≤ (retryWithBackoff fn 3).attempts ∧ (retryWithBackoff fn 3).attempts ≤ 3) ∧
    (retryWithBackoff fn 3).result =
      some (fn ((retryWithBackoff fn 3).attempts - 1)) ∧
    (retryWithBackoff fn 3).delays =
      (List.range ((retryWithBackoff fn 3).attempts - 1)).map
        (fun i => 2 ^ i * 1000) ∧
    (∀ i, i + 1 < (retryWithBackoff fn 3).attempts →
      ∃ m, fn i = .thrown m ∧ isRetryableMsg m = true) ∧
    (∀ m, fn 0 = .thrown m → isRetryableMsg m = false →
      retryWithBackoff fn 3 = ⟨some (.thrown m), 1, []⟩) := by
  have h := retryGo_spec fn 3 3 0 (by omega) (by omega)
  obtain ⟨⟨ha1, ha2⟩, hres, hdel, htrans⟩ := h
  refine ⟨⟨by simpa [retryWithBackoff] using ha1,
      by simp only [retryWithBackoff]; omega⟩,
    by simpa [retryWithBackoff] using hres,
    by simpa [retryWithBackoff] using hdel,
    by simpa [retryWithBackoff] using htrans, ?_⟩
  intro m hm hr
  rw [retryWithBackoff, retryGo, hm]
  dsimp only
  rw [if_pos (Or.inr hr)]

theorem sumSq_foldl_shift (l : List ℝ) : ∀ c : ℝ,
    l.foldl (fun s x => s + x * x) c = c + sumSq l := by
  induction l with
  | nil => intro c; simp [sumSq]
  | cons x xs ih =>
    intro c
    simp only [List.foldl_cons, sumSq]
    rw [ih (c + x * x), ih (0 + x * x)]
    ring

theorem sumSq_cons (x : ℝ) (l : List ℝ) : sumSq (x :: l) = x * x + sumSq l := by
  rw [sumSq, List.foldl_cons, sumSq_foldl_shift]
  ring

theorem sumSq_nonneg (l : List ℝ) : 0 ≤ sumSq l := by
  induction l with
  | nil => simp [sumSq]
  | cons x xs ih =>
    rw [sumSq_cons]
    have := mul_self_nonneg x
    linarith

theorem sumSq_eq_zero_iff (l : List ℝ) : sumSq l = 0 ↔ ∀ x ∈ l, x = 0 := by
  induction l with
  | nil => simp [sumSq]
  | cons x xs ih =>
    rw [sumSq_cons]
    constructor
    · intro h
      have hx := mul_self_nonneg x
      have hxs := sumSq_nonneg xs
      have hx0 : x * x = 0 := by linarith
      have hxx : x = 0 := by
        rcases mul_self_eq_zero.mp hx0 with h0
        exact h0
      have hs : sumSq xs = 0 := by linarith
      intro y hy
      rcases List.mem_cons.mp hy with h1 | h2
      · rw [h1]; exact hxx
      · exact ih.mp hs y h2
    · intro h
      have hx := h x (List.mem_cons_self x xs)
      have hs : sumSq xs = 0 := ih.mpr fun y hy => h y (List.mem_cons_of_mem x hy)
      rw [hx, hs]; ring

theorem dotProduct_foldl_shift (l : List (ℝ × ℝ)) : ∀ c : ℝ,
    l.foldl (fun s p => s + p.1 * p.2) c =
      c + l.foldl (fun s p => s + p.1 * p.2) 0 := by
  induction l with
  | nil => intro c; simp
  | cons p ps ih =>
    intro c
    simp only [List.foldl_cons]
    rw [ih (c + p.1 * p.2), ih (0 + p.1 * p.2)]
    ring

theorem dotProduct_zero_left (a b : List ℝ) (h : ∀ x ∈ a, x = 0) :
    dotProduct a b = 0 := by
  induction a generalizing b with
  | nil => simp [dotProduct]
  | cons x xs ih =>
    cases b with
    | nil => simp [dotProduct]
    | cons y ys =>
      have hx : x = 0 := h x (List.mem_cons_self x xs)
      have hxs := ih ys fun z hz => h z (List.mem_cons_of_mem x hz)
      rw [dotProduct] at hxs ⊢
      simp only [List.zip_cons_cons, List.foldl_cons]
      rw [dotProduct_foldl_shift]
      simp at hxs ⊢
      rw [hxs, hx]
      ring

theorem dotProduct_zero_right (a b : List ℝ) (h : ∀ x ∈ b, x = 0) :
    dotProduct a b = 0 := by
  induction a generalizing b with
  | nil => simp [dotProduct]
  | cons x xs ih =>
    cases b with
    | nil => simp [dotProduct]
    | cons y ys =>
      have hy : y = 0 := h y (List.mem_cons_self y ys)
      have hxs := ih ys fun z hz => h z (List.mem_cons_of_mem y hz)
      rw [dotProduct] at hxs ⊢
      simp only [List.zip_cons_cons, List.foldl_cons]
      rw [dotProduct_foldl_shift]
      simp at hxs ⊢
      rw [hxs, hy]
      ring

/-- Shared fact: whenever the magnitude product is zero, the dot product is
zero too, so `cosineSimilarity` produces NaN — never an infinity. -/
theorem cosineSimilarity_magnitude_zero (a b : List ℝ)
    (hlen : a.length = b.length) (h : sumSq a = 0 ∨ sumSq b = 0) :
    cosineSimilarity a b = .nan := by
  have hdot : dotProduct a b = 0 := by
    rcases h with h | h
    · exact dotProduct_zero_left a b ((sumSq_eq_zero_iff a).mp h)
    · exact dotProduct_zero_right a b ((sumSq_eq_zero_iff b).mp h)
  have hmag : Real.sqrt (sumSq a) * Real.sqrt (sumSq b) = 0 := by
    rcases h with h | h
    · rw [h, Real.sqrt_zero, zero_mul]
    · rw [h, Real.sqrt_zero, mul_zero]
  rw [cosineSimilarity, if_neg (by simp [hlen]), hmag, hdot, jsDivR]
  simp

theorem cosineSimilarity_ne_inf (a b : List ℝ) :
    cosineSimilarity a b ≠ .posInf ∧ cosineSimilarity a b ≠ .negInf := by
  by_cases hlen : a.length = b.length
  · by_cases hz : sumSq a = 0 ∨ sumSq b = 0
    · rw [cosineSimilarity_magnitude_zero a b hlen hz]
      exact ⟨by simp, by simp⟩
    · push_neg at hz
      have hd : Real.sqrt (sumSq a) * Real.sqrt (sumSq b) ≠ 0 := by
        intro h
        rcases mul_eq_zero.mp h with h | h
        · exact hz.1 (by
            have := Real.sqrt_eq_zero (sumSq_nonneg a) |>.mp h
            exact this)
        · exact hz.2 (by
            have := Real.sqrt_eq_zero (sumSq_nonneg b) |>.mp h
            exact this)
      rw [cosineSimilarity, if_neg (by simp [hlen]), jsDivR, if_neg hd]
      exact ⟨by simp, by simp⟩
  · rw [cosineSimilarity, if_pos (by simp [hlen])]
    exact ⟨by simp, by simp⟩

/-- C2 (amended): `cosineSimilarity` is a total function (it cannot throw);
with mismatched lengths — in particular exactly one vector empty — it
returns 0; but with equal lengths and a zero magnitude on either side
(both vectors empty included) the JS division returns NaN, not 0; and it
never returns an infinity, because a zero denominator forces a zero
numerator. -/
theorem cosineSimilarity_zero_cases (a b : List ℝ) :
    (a.length ≠ b.length → cosineSimilarity a b = .val 0) ∧
    (a.length = b.length → sumSq a = 0 ∨ sumSq b = 0 →
      cosineSimilarity a b = .nan) ∧
    cosineSimilarity a b ≠ .posInf ∧ cosineSimilarity a b ≠ .negInf := by
  refine ⟨?_, cosineSimilarity_magnitude_zero a b, cosineSimilarity_ne_inf a b⟩
  intro h
  rw [cosineSimilarity, if_pos (by simp [h])]

/-- Witness for the amended C2 at concrete inputs: a mismatched pair gives 0
and the all-zero equal-length pair gives NaN. -/
theorem cosineSimilarity_zero_cases_witness :
    cosineSimilarity [(1 : ℝ)] [] = .val 0 ∧
    cosineSimilarity [(0 : ℝ)] [(0 : ℝ)] = .nan := by
  constructor
  · exact (cosineSimilarity_zero_cases [(1 : ℝ)] []).1 (by simp)
  · exact (cosineSimilarity_zero_cases [(0 : ℝ)] [(0 : ℝ)]).2.1 (by simp)
      (Or.inl (by simp [sumSq_cons, sumSq]))

/-- C2 as written is false on the code: the cosine similarity of two empty
vectors (equal length, both magnitudes zero) is `0/0 = NaN`, not 0. -/
theorem cosineSimilarity_empty_nan :
    cosineSimilarity ([] : List ℝ) ([] : List ℝ) = .nan ∧
    cosineSimilarity ([] : List ℝ) ([] : List ℝ) ≠ .val 0 := by
  have h : cosineSimilarity ([] : List ℝ) ([] : List ℝ) = .nan := by
    rw [cosineSimilarity, if_neg (by simp)]
    simp [sumSq, dotProduct, jsDivR]
  exact ⟨h, by rw [h]; simp⟩

theorem intercalate_single (s a : String) : String.intercalate s [a] = a := rfl

/-- C3 (amended): for a singular-referring message with non-empty history,
when at least one course number occurs in the current message or the last 2
prior messages, the expanded query is one prepended course token followed by
the original message — but the prepended token is the LAST element of the
first-occurrence-deduplication of (current-message courses first, then
history courses oldest-first), not necessarily the most recently mentioned
course, and the original message may itself contribute further course
tokens.  On the spec example (history `CS 101` then `CS 202`, message
`what about that one`) the pick is `CS 202` and the course tokens of the
expanded query are exactly `[CS 202]`, with no `CS 101`. -/
theorem expandQuery_singular_pick :
    (∀ (message : String) (conversationHistory : List HistMsg),
      isSingularMsg message = true → conversationHistory ≠ [] →
      expandCourseNumbers message conversationHistory ≠ [] →
      expandQuery message conversationHistory =
        (dedupFirst [] (expandCourseNumbers message conversationHistory)).getLastD ""
          ++ " " ++ message) ∧
    expandQuery "what about that one"
      [⟨"user", "tell me about CS 101"⟩, ⟨"bot", "CS 202 is great"⟩] =
      "CS 202 what about that one" ∧
    extractCourses "CS 202 what about that one" = ["CS 202"] := by
  refine ⟨?_, by decide, by decide⟩
  intro message conversationHistory hs hne hcn
  rw [expandQuery]
  rw [if_pos ⟨Or.inl (by rw [hs]), List.length_pos.mpr hne⟩]
  rw [if_pos (by
    have := List.length_pos.mpr hcn
    omega)]
  dsimp only
  rw [hs]
  simp [intercalate_single]

/-- C3 as written is false on the code: with the singular message
`how does that compare to CS 101` after history mentioning `CS 202`, the
expanded query carries TWO course tokens, and the prepended one is the last
history course `CS 202` even though the most recently mentioned course is
`CS 101` (it is in the current message, which the code places first in the
deduplication order). -/
theorem expandQuery_singular_cex :
    isSingularMsg "how does that compare to CS 101" = true ∧
    extractCourses (expandQuery "how does that compare to CS 101"
      [⟨"user", "tell me about CS 202"⟩]) = ["CS 202", "CS 101"] := by
  constructor
  · decide
  · decide

theorem filter_window (l : List Nat) (now now' : Nat) (h : now ≤ now') :
    (l.filter fun t => Int.ofNat t > (now : Int) - 60000).filter
        (fun t => Int.ofNat t > (now' : Int) - 60000) =
      l.filter fun t => Int.ofNat t > (now' : Int) - 60000 := by
  rw [List.filter_filter]
  apply List.filter_congr
  intro t _
  simp
  intro h2
  omega

/-- The function `refresh` in closed form: the day and minute stamps always end up at the
current readings, the counters reset exactly on a changed stamp, and the
window is pruned. -/
theorem refresh_eq (st : RateState) (now : Nat) (today : String) :
    refresh st now today =
      { requestsToday := if st.currentDay = today then st.requestsToday else 0
        requestsThisMinute :=
          ((if st.currentMinute = now / 60000 then st.requestTimestamps
            else []).filter fun t => Int.ofNat t > (now : Int) - 60000).length
        currentDay := today
        currentMinute := now / 60000
        lastRequestTime := st.lastRequestTime
        requestTimestamps :=
          (if st.currentMinute = now / 60000 then st.requestTimestamps
            else []).filter fun t => Int.ofNat t > (now : Int) - 60000
        totalRequests := st.totalRequests
        firstRequestDate := st.firstRequestDate } := by
  unfold refresh
  by_cases hd : st.currentDay = today <;>
    by_cases hm : st.currentMinute = now / 60000 <;>
      simp [hd, hm]

/-- Running the shared reset/prune normalisation at an earlier clock reading
and then at a later one is the same as running it once at the later reading,
provided the clock does not run backwards (the minute stamp is from the past
and a changed day never changes back). -/
theorem refresh_daily_component (x : Nat) (d today today' : String)
    (h3 : d ≠ today → d ≠ today') :
    (if today = today' then (if d = today then x else 0) else 0) =
      (if d = today' then x else 0) := by
  by_cases hd : d = today
  · by_cases hd' : today = today'
    · have : d = today' := by rw [hd, hd']
      simp [hd, hd', this]
    · have : ¬ d = today' := by rw [hd]; exact hd'
      simp [hd', this]
  · have := h3 hd
    by_cases hd' : today = today' <;> simp [hd', this]

theorem refresh_window_component (ts : List Nat) (cm now now' : Nat)
    (h1 : now ≤ now') (h2 : cm ≤ now / 60000) :
    ((if now / 60000 = now' / 60000 then
        (if cm = now / 60000 then ts else []).filter
          (fun t => Int.ofNat t > (now : Int) - 60000)
      else []).filter fun t => Int.ofNat t > (now' : Int) - 60000) =
      ((if cm = now' / 60000 then ts else []).filter
        fun t => Int.ofNat t > (now' : Int) - 60000) := by
  have hmm : now / 60000 ≤ now' / 60000 := Nat.div_le_div_right h1
  by_cases hm' : now / 60000 = now' / 60000
  · by_cases hm : cm = now / 60000
    · have hc : cm = now' / 60000 := by omega
      simp only [hm, hm', hc, if_pos rfl]
      exact filter_window ts now now' h1
    · have hc : ¬ cm = now' / 60000 := by omega
      simp [hm, hm', hc]
  · have hc : ¬ cm = now' / 60000 := by omega
    by_cases hm : cm = now / 60000 <;> simp [hm, hm', hc]

/-- Running the shared reset/prune normalisation at an earlier clock reading
and then at a later one is the same as running it once at the later reading,
provided the clock does not run backwards (the minute stamp is from the past
and a changed day never changes back). -/
theorem refresh_refresh (st : RateState) (now now' : Nat) (today today' : String)
    (h1 : now ≤ now') (h2 : st.currentMinute ≤ now / 60000)
    (h3 : st.currentDay ≠ today → st.currentDay ≠ today') :
    refresh (refresh st now today) now' today' = refresh st now' today' := by
  rw [refresh_eq st now today, refresh_eq, refresh_eq st now' today']
  dsimp only
  have hw := refresh_window_component st.requestTimestamps st.currentMinute
    now now' h1 h2
  have hd := refresh_daily_component st.requestsToday st.currentDay today
    today' h3
  simp only [RateState.mk.injEq]
  exact ⟨hd, by rw [hw], trivial, trivial, trivial, hw, trivial, trivial⟩

/-- C9 (amended): the usage endpoint records nothing — `getUsageStats`
leaves the lifetime total and the last-request stamp untouched — but it does
perform, in place, the same day/minute reset and sliding-window pruning that
`canMakeRequest` performs; since that normalisation is exactly what the next
check would redo anyway, polling the endpoint never changes the outcome of a
subsequent `canMakeRequest` (as long as the clock does not run backwards). -/
theorem usageGET_read_only (st : RateState) (now : Nat) (today : String)
    (now' : Nat) (today' : String) :
    ((getUsageStats st now today).1 = refresh st now today ∧
      (getUsageStats st now today).1.totalRequests = st.totalRequests ∧
      (getUsageStats st now today).1.lastRequestTime = st.lastRequestTime ∧
      (usageGET st now today).1 = (getUsageStats st now today).1) ∧
    (now ≤ now' → st.currentMinute ≤ now / 60000 →
      (st.currentDay ≠ today → st.currentDay ≠ today') →
      (canMakeRequest (getUsageStats st now today).1 now' today').2 =
        (canMakeRequest st now' today').2) := by
  constructor
  · refine ⟨rfl, ?_, ?_, rfl⟩
    · show (refresh st now today).totalRequests = st.totalRequests
      rw [refresh_eq]
    · show (refresh st now today).lastRequestTime = st.lastRequestTime
      rw [refresh_eq]
  · intro h1 h2 h3
    have hr := refresh_refresh st now now' today today' h1 h2 h3
    show ((canMakeRequest (refresh st now today) now' today')).2 =
      (canMakeRequest st now' today').2
    rw [canMakeRequest, canMakeRequest, hr]

/-- C9 as written is false on the code: `getUsageStats` (and hence the GET
usage endpoint) does alter the rate-limit state — here a poll two minutes
after a recorded request resets the per-minute counter and empties the
timestamp window in place. -/
theorem usageGET_mutates_state_cex :
    (usageGET
        { requestsToday := 3, requestsThisMinute := 1,
          currentDay := "Mon Jan 01 2024", currentMinute := 0,
          lastRequestTime := 0, requestTimestamps := [0],
          totalRequests := 3, firstRequestDate := "start" } 120000
        "Mon Jan 01 2024").1 ≠
      { requestsToday := 3, requestsThisMinute := 1,
        currentDay := "Mon Jan 01 2024", currentMinute := 0,
        lastRequestTime := 0, requestTimestamps := [0],
        totalRequests := 3, firstRequestDate := "start" } ∧
    (usageGET
        { requestsToday := 3, requestsThisMinute := 1,
          currentDay := "Mon Jan 01 2024", currentMinute := 0,
          lastRequestTime := 0, requestTimestamps := [0],
          totalRequests := 3, firstRequestDate := "start" } 120000
        "Mon Jan 01 2024").1.requestTimestamps = [] := by
  constructor
  · decide
  · decide

/-- Witness for the amended C9 at a concrete state: a poll at minute 2
leaves the outcome of the next check exactly what it would have been without the
poll. -/
theorem usageGET_read_only_witness :
    (canMakeRequest
        (getUsageStats
          { requestsToday := 3, requestsThisMinute := 1,
            currentDay := "Mon Jan 01 2024", currentMinute := 0,
            lastRequestTime := 0, requestTimestamps := [0],
            totalRequests := 3, firstRequestDate := "start" } 120000
          "Mon Jan 01 2024").1 180000 "Mon Jan 01 2024").2 =
      (canMakeRequest
        { requestsToday := 3, requestsThisMinute := 1,
          currentDay := "Mon Jan 01 2024", currentMinute := 0,
          lastRequestTime := 0, requestTimestamps := [0],
          totalRequests := 3, firstRequestDate := "start" } 180000
        "Mon Jan 01 2024").2 :=
  (usageGET_read_only
    { requestsToday := 3, requestsThisMinute := 1,
      currentDay := "Mon Jan 01 2024", currentMinute := 0,
      lastRequestTime := 0, requestTimestamps := [0],
      totalRequests := 3, firstRequestDate := "start" } 120000
    "Mon Jan 01 2024" 180000 "Mon Jan 01 2024").2 (by decide) (by decide)
    (by decide)

/-- C1: on the rate-admitted path the three tiers are attempted strictly in
order 1, 2, 3; the first tier whose result is a success is returned and no
later tier is invoked (the trace records exactly the tiers called); a thrown
exception inside a tier is caught there and becomes a failure with reason
`error`, so the cascade continues; and when all three tiers fail the handler
returns the fixed apology carrying all three failure reasons in the
metadata. -/
theorem tieredPOST_cascade (message : String) (conversationHistory : List HistMsg)
    (st : RateState) (now : Nat) (today : String)
    (t1docs : Outcome (Option InternalData)) (t1model t2model : Outcome String)
    (t3model : Outcome Tier3Reply)
    (hmsg : jsTrim message ≠ "")
    (hthr : shouldThrottle st now = .clear)
    (hallow : (canMakeRequest st now today).2.allowed = true) :
    (∀ resp md, tryTier1 t1docs t1model = .success resp md →
      tieredPOST message conversationHistory st now today t1docs t1model
          t2model t3model =
        (.answer resp md, recordRequest (canMakeRequest st now today).1 now,
          [.throttleCheck, .rateCheck, .record, .tierCall 1])) ∧
    (∀ r1 e1 resp md, tryTier1 t1docs t1model = .failure r1 e1 →
      tryTier2 t2model = .success resp md →
      tieredPOST message conversationHistory st now today t1docs t1model
          t2model t3model =
        (.answer resp md, recordRequest (canMakeRequest st now today).1 now,
          [.throttleCheck, .rateCheck, .record, .tierCall 1, .tierCall 2])) ∧
    (∀ r1 e1 r2 e2 resp md, tryTier1 t1docs t1model = .failure r1 e1 →
      tryTier2 t2model = .failure r2 e2 →
      tryTier3 t3model = .success resp md →
      tieredPOST message conversationHistory st now today t1docs t1model
          t2model t3model =
        (.answer resp md, recordRequest (canMakeRequest st now today).1 now,
          [.throttleCheck, .rateCheck, .record, .tierCall 1, .tierCall 2,
           .tierCall 3])) ∧
    (∀ r1 e1 r2 e2 r3 e3, tryTier1 t1docs t1model = .failure r1 e1 →
      tryTier2 t2model = .failure r2 e2 →
      tryTier3 t3model = .failure r3 e3 →
      tieredPOST message conversationHistory st now today t1docs t1model
          t2model t3model =
        (.exhausted ALL_TIERS_FAILED_MESSAGE r1 r2 r3,
          recordRequest (canMakeRequest st now today).1 now,
          [.throttleCheck, .rateCheck, .record, .tierCall 1, .tierCall 2,
           .tierCall 3])) ∧
    ((∀ e m, tryTier1 (.thrown e) m = .failure "error" (some e)) ∧
      (∀ d e, d.context ≠ "" →
        tryTier1 (.ok (some d)) (.thrown e) = .failure "error" (some e)) ∧
      (∀ e, tryTier2 (.thrown e) = .failure "error" (some e)) ∧
      (∀ e, tryTier3 (.thrown e) = .failure "error" (some e))) := by
  obtain ⟨a, b, hcr⟩ : ∃ a b, (canMakeRequest st now today).2 = .allowedWith a b := by
    cases hc : (canMakeRequest st now today).2 with
    | denied r m ra => rw [hc] at hallow; simp [CheckResult.allowed] at hallow
    | allowedWith a b => exact ⟨a, b, rfl⟩
  have hbody : tieredPOST message conversationHistory st now today t1docs
      t1model t2model t3model =
      (match tryTier1 t1docs t1model with
       | .success response metadata =>
         (.answer response metadata,
           recordRequest (canMakeRequest st now today).1 now,
           [.throttleCheck, .rateCheck, .record, .tierCall 1])
       | .failure tier1Reason _ =>
         match tryTier2 t2model with
         | .success response metadata =>
           (.answer response metadata,
             recordRequest (canMakeRequest st now today).1 now,
             [.throttleCheck, .rateCheck, .record, .tierCall 1, .tierCall 2])
         | .failure tier2Reason _ =>
           match tryTier3 t3model with
           | .success response metadata =>
             (.answer response metadata,
               recordRequest (canMakeRequest st now today).1 now,
               [.throttleCheck, .rateCheck, .record, .tierCall 1, .tierCall 2,
                .tierCall 3])
           | .failure tier3Reason _ =>
             (.exhausted ALL_TIERS_FAILED_MESSAGE tier1Reason tier2Reason
               tier3Reason,
               recordRequest (canMakeRequest st now today).1 now,
               [.throttleCheck, .rateCheck, .record, .tierCall 1, .tierCall 2,
                .tierCall 3])) := by
    rw [tieredPOST, if_neg (by simpa using hmsg), hthr]
    dsimp only
    rw [show canMakeRequest st now today =
        ((canMakeRequest st now today).1, (canMakeRequest st now today).2) from rfl,
      hcr]
  refine ⟨?_, ?_, ?_, ?_, ?_, ?_, ?_, ?_⟩
  · intro resp md h1
    rw [hbody, h1]
  · intro r1 e1 resp md h1 h2
    rw [hbody, h1, h2]
  · intro r1 e1 r2 e2 resp md h1 h2 h3
    rw [hbody, h1, h2, h3]
  · intro r1 e1 r2 e2 r3 e3 h1 h2 h3
    rw [hbody, h1, h2, h3]
  · intro e m; rfl
  · intro d e hd
    rw [tryTier1, if_neg hd]
  · intro e; rfl
  · intro e; rfl

/-- Witness for C1 at a concrete run: a fresh admitted request where tier 1
finds no documents, tier 2 throws and tier 3 throws, producing the apology
with the three reasons. -/
theorem tieredPOST_cascade_witness :
    tieredPOST "hello" [] (createDefaultState 0 "Mon Jan 01 2024" "start") 5000
        "Mon Jan 01 2024" (.ok none) (.ok "unused") (.thrown "network down")
        (.thrown "search down") =
      (.exhausted ALL_TIERS_FAILED_MESSAGE "no_documents" "error" "error",
        recordRequest
          (canMakeRequest (createDefaultState 0 "Mon Jan 01 2024" "start") 5000
            "Mon Jan 01 2024").1 5000,
        [.throttleCheck, .rateCheck, .record, .tierCall 1, .tierCall 2,
         .tierCall 3]) := by
  have h := tieredPOST_cascade "hello" []
    (createDefaultState 0 "Mon Jan 01 2024" "start") 5000 "Mon Jan 01 2024"
    (.ok none) (.ok "unused") (.thrown "network down") (.thrown "search down")
    (by decide) (by decide) (by decide)
  exact h.2.2.2.1 "no_documents" none "error" (some "network down") "error"
    (some "search down") rfl rfl rfl

theorem canMakeRequest_fst (st : RateState) (now : Nat) (today : String) :
    (canMakeRequest st now today).1 = refresh st now today := by
  rw [canMakeRequest]
  split
  · rfl
  · split <;> rfl

/-- C5: in the tiered handler the throttle check comes first, then the
rate-ceiling check, then `recordRequest`, then the tier calls — the trace is
always an in-order selection of that sequence; a throttled request gets a
429 with `rateLimited: true` and a `waitTime` hint, with no tier call, no
recording and the state untouched; an over-quota request gets a 429 with
`rateLimited: true` and a `retryAfter` hint, with no tier call and nothing
recorded (the state only undergoes the reset/prune
normalisation, which keeps the lifetime total and last-request stamp). -/
theorem tieredPOST_guards (message : String) (conversationHistory : List HistMsg)
    (st : RateState) (now : Nat) (today : String)
    (t1docs : Outcome (Option InternalData)) (t1model t2model : Outcome String)
    (t3model : Outcome Tier3Reply) :
    List.Sublist
      (tieredPOST message conversationHistory st now today t1docs t1model
        t2model t3model).2.2
      [.throttleCheck, .rateCheck, .record, .tierCall 1, .tierCall 2,
       .tierCall 3] ∧
    (∀ w m, jsTrim message ≠ "" → shouldThrottle st now = .throttledFor w m →
      tieredPOST message conversationHistory st now today t1docs t1model
          t2model t3model =
        (.throttled429 "Please wait before sending another message" m w true 429,
          st, [.throttleCheck])) ∧
    (∀ reason cmsg ra, jsTrim message ≠ "" → shouldThrottle st now = .clear →
      (canMakeRequest st now today).2 = .denied reason cmsg ra →
      tieredPOST message conversationHistory st now today t1docs t1model
          t2model t3model =
        (.limited429 cmsg reason ra true
          ("⚠️ Rate limit reached. " ++ cmsg ++ ". Please try again in "
            ++ renderRetryAfter ra ++ ".") 429,
          (canMakeRequest st now today).1, [.throttleCheck, .rateCheck])) ∧
    ((canMakeRequest st now today).1.totalRequests = st.totalRequests ∧
      (canMakeRequest st now today).1.lastRequestTime = st.lastRequestTime) := by
  refine ⟨?_, ?_, ?_, ?_, ?_⟩
  · rw [tieredPOST]
    by_cases hm : jsTrim message = ""
    · rw [if_pos hm]; exact List.nil_sublist _
    · rw [if_neg hm]
      cases hthr : shouldThrottle st now with
      | throttledFor w m => dsimp only; decide
      | clear =>
        dsimp only
        rw [show canMakeRequest st now today =
          ((canMakeRequest st now today).1, (canMakeRequest st now today).2)
          from rfl]
        cases hcr : (canMakeRequest st now today).2 with
        | denied r c ra => dsimp only; decide
        | allowedWith a b =>
          dsimp only
          cases tryTier1 t1docs t1model with
          | success resp md => dsimp only; decide
          | failure r1 e1 =>
            dsimp only
            cases tryTier2 t2model with
            | success resp md => dsimp only; decide
            | failure r2 e2 =>
              dsimp only
              cases tryTier3 t3model with
              | success resp md => dsimp only; decide
              | failure r3 e3 => dsimp only; decide
  · intro w m hmsg hthr
    rw [tieredPOST, if_neg (by simpa using hmsg), hthr]
  · intro reason cmsg ra hmsg hthr hcr
    rw [tieredPOST, if_neg (by simpa using hmsg), hthr]
    rw [show canMakeRequest st now today =
      ((canMakeRequest st now today).1, (canMakeRequest st now today).2)
      from rfl, hcr]
  · rw [canMakeRequest_fst, refresh_eq]
  · rw [canMakeRequest_fst, refresh_eq]

theorem filter_simKey_orderedInsert (s : ℝ) (x : RankedChunk)
    (l : List RankedChunk) :
    (List.orderedInsert (fun a b => simKey b ≤ simKey a) x l).filter
        (fun r => decide (simKey r = s)) =
      if simKey x = s then
        x :: l.filter (fun r => decide (simKey r = s))
      else l.filter (fun r => decide (simKey r = s)) := by
  induction l with
  | nil =>
    by_cases hx : simKey x = s <;>
      simp [List.orderedInsert, List.filter_cons, hx]
  | cons y ys ih =>
    rw [List.orderedInsert]
    by_cases hxy : simKey y ≤ simKey x
    · rw [if_pos hxy]
      by_cases hx : simKey x = s <;> simp [List.filter_cons, hx]
    · rw [if_neg hxy]
      rw [List.filter_cons]
      by_cases hy : simKey y = s
      · have hx : ¬ simKey x = s := by
          intro hx
          exact hxy (le_of_eq (by rw [hx, hy]))
        simp [hy, hx, ih, List.filter_cons]
      · simp [hy, ih]

theorem filter_simKey_insertionSort (s : ℝ) (l : List RankedChunk) :
    (l.insertionSort fun a b => simKey b ≤ simKey a).filter
        (fun r => decide (simKey r = s)) =
      l.filter (fun r => decide (simKey r = s)) := by
  induction l with
  | nil => rfl
  | cons x xs ih =>
    rw [List.insertionSort, filter_simKey_orderedInsert, List.filter_cons]
    by_cases hx : simKey x = s <;> simp [hx, ih]

/-- C7: once the query embedding is obtained, the similarity ranker returns
at most `topK` results; every returned result carries a plain-number
similarity at least `minScore` (NaN similarities never pass the filter);
every returned result is a knowledge-base chunk that has an embedding;
results are in descending similarity order; and ties keep the original
chunk order — for each score value, the returned results with that score
are an in-order selection of the score-filtered chunk list. -/
theorem rankChunks_spec (q : List ℝ) (chunks : List Chunk) (topK : Nat)
    (minScore : ℝ) (cat : Option String) :
    findRelevantChunks (.ok q) chunks topK minScore cat =
      .ok (rankChunks q chunks topK minScore cat) ∧
    (rankChunks q chunks topK minScore cat).length ≤ topK ∧
    (∀ r ∈ rankChunks q chunks topK minScore cat,
      ∃ v : ℝ, r.similarity = some (.val v) ∧ minScore ≤ v) ∧
    (∀ r ∈ rankChunks q chunks topK minScore cat,
      r.chunk ∈ chunks ∧ r.chunk.embedding.isSome = true) ∧
    List.Pairwise (fun a b => simKey b ≤ simKey a)
      (rankChunks q chunks topK minScore cat) ∧
    (∀ s : ℝ, List.Sublist
      ((rankChunks q chunks topK minScore cat).filter
        (fun r => decide (simKey r = s)))
      ((scoredChunks q chunks minScore cat).filter
        (fun r => decide (simKey r = s)))) := by
  have hmem_scored : ∀ r ∈ scoredChunks q chunks minScore cat,
      (∃ v : ℝ, r.similarity = some (.val v) ∧ minScore ≤ v) ∧
      r.chunk ∈ chunks ∧ r.chunk.embedding.isSome = true := by
    intro r hr
    rw [scoredChunks] at hr
    obtain ⟨hr1, hp⟩ := List.mem_filter.mp hr
    obtain ⟨c, hc, rfl⟩ := List.mem_map.mp hr1
    obtain ⟨hc1, _⟩ := List.mem_filter.mp hc
    obtain ⟨hcm, hemb⟩ := List.mem_filter.mp hc1
    refine ⟨?_, hcm, hemb⟩
    simp only [Option.getD_some] at hp
    cases hcos : cosineSimilarity q (c.embedding.getD []) with
    | nan => rw [hcos] at hp; simp [jsGeR] at hp
    | posInf => exact absurd hcos (cosineSimilarity_ne_inf _ _).1
    | negInf => exact absurd hcos (cosineSimilarity_ne_inf _ _).2
    | val v =>
      refine ⟨v, rfl, ?_⟩
      rw [hcos] at hp
      simpa [jsGeR] using hp
  have hmem : ∀ r ∈ rankChunks q chunks topK minScore cat,
      r ∈ scoredChunks q chunks minScore cat := by
    intro r hr
    rw [rankChunks] at hr
    have h1 := (List.take_sublist _ _).mem hr
    exact (List.mem_insertionSort _).mp h1
  refine ⟨rfl, ?_, ?_, ?_, ?_, ?_⟩
  · rw [rankChunks]
    exact List.length_take_le _ _
  · intro r hr; exact (hmem_scored r (hmem r hr)).1
  · intro r hr; exact (hmem_scored r (hmem r hr)).2
  · rw [rankChunks]
    exact List.Pairwise.sublist (List.take_sublist _ _)
      (List.sorted_insertionSort _ _)
  · intro s
    rw [rankChunks]
    have h1 : List.Sublist
        ((((scoredChunks q chunks minScore cat).insertionSort
            fun a b => simKey b ≤ simKey a).take topK).filter
          (fun r => decide (simKey r = s)))
        (((scoredChunks q chunks minScore cat).insertionSort
            fun a b => simKey b ≤ simKey a).filter
          (fun r => decide (simKey r = s))) :=
      (List.take_sublist _ _).filter _
    rw [filter_simKey_insertionSort s _] at h1
    exact h1

theorem cacheGet_cacheSet_self (cache : List (String × CacheEntry))
    (k : String) (v : CacheEntry) : cacheGet (cacheSet cache k v) k = some v := by
  simp [cacheGet, cacheSet, List.find?]

/-- Every run of the recompute path either produced a pipeline answer and
wrote the cache entry for the key (same response, same metadata, fresh
timestamp), or took the model-failure-with-no-chunks path, returned the
fixed overload apology and left the cache untouched. -/
theorem ragCompute_shape (cache : List (String × CacheEntry))
    (cacheKey message : String) (conversationHistory : List HistMsg)
    (now : Nat) (embed : Outcome (List ℝ)) (chunks : List Chunk)
    (mainModel searchModel : Nat → Outcome String) :
    (∃ r md tr, ragCompute cache cacheKey message conversationHistory now
        embed chunks mainModel searchModel =
      ⟨.answer r md, cacheSet cache cacheKey ⟨⟨r, md⟩, now⟩, tr⟩) ∨
    (∃ tr, ragCompute cache cacheKey message conversationHistory now embed
        chunks mainModel searchModel =
      ⟨.overloadedApology OVERLOADED_MESSAGE "Gemini overloaded" true, cache,
        tr⟩) := by
  rw [ragCompute]
  cases hsearch : findRelevantChunks embed chunks 10 (1 / 4) none with
  | ok l =>
    dsimp only
    cases hmain : (retryWithBackoff mainModel 3).result with
    | some o =>
      cases o with
      | ok text =>
        dsimp only
        by_cases hcond : l.length = 0 ∨ jsIncludes text NO_KB_INFO_PHRASE = true
        · rw [if_pos hcond]
          cases hsr : (retryWithBackoff searchModel 3).result with
          | some o2 =>
            cases o2 with
            | ok t2 => exact Or.inl ⟨_, _, _, rfl⟩
            | thrown e2 => exact Or.inl ⟨_, _, _, rfl⟩
          | none => exact Or.inl ⟨_, _, _, rfl⟩
        · rw [if_neg hcond]
          exact Or.inl ⟨_, _, _, rfl⟩
      | thrown e =>
        dsimp only
        cases l with
        | nil => exact Or.inr ⟨_, rfl⟩
        | cons c rest => exact Or.inl ⟨_, _, _, rfl⟩
    | none =>
      dsimp only
      cases l with
      | nil => exact Or.inr ⟨_, rfl⟩
      | cons c rest => exact Or.inl ⟨_, _, _, rfl⟩
  | thrown e =>
    dsimp only
    cases hmain : (retryWithBackoff mainModel 3).result with
    | some o =>
      cases o with
      | ok text =>
        dsimp only
        by_cases hcond : (keywordSearch (expandQuery message conversationHistory)
            chunks 10).length = 0 ∨ jsIncludes text NO_KB_INFO_PHRASE = true
        · rw [if_pos hcond]
          cases hsr : (retryWithBackoff searchModel 3).result with
          | some o2 =>
            cases o2 with
            | ok t2 => exact Or.inl ⟨_, _, _, rfl⟩
            | thrown e2 => exact Or.inl ⟨_, _, _, rfl⟩
          | none => exact Or.inl ⟨_, _, _, rfl⟩
        · rw [if_neg hcond]
          exact Or.inl ⟨_, _, _, rfl⟩
      | thrown e1 =>
        dsimp only
        cases hks : keywordSearch (expandQuery message conversationHistory)
            chunks 10 with
        | nil => exact Or.inr ⟨_, rfl⟩
        | cons c rest => exact Or.inl ⟨_, _, _, rfl⟩
    | none =>
      dsimp only
      cases hks : keywordSearch (expandQuery message conversationHistory)
          chunks 10 with
      | nil => exact Or.inr ⟨_, rfl⟩
      | cons c rest => exact Or.inl ⟨_, _, _, rfl⟩

theorem ragPOST_hit_lemma (cache : List (String × CacheEntry))
    (message : String) (conversationHistory : List HistMsg) (now : Nat)
    (embed : Outcome (List ℝ)) (chunks : List Chunk)
    (mainModel searchModel : Nat → Outcome String) (e : CacheEntry)
    (hm : message ≠ "") (hg : cacheGet cache (getCacheKey message) = some e)
    (ht : now - e.timestamp < CACHE_TTL) :
    ragPOST cache message conversationHistory now embed chunks mainModel
        searchModel =
      ⟨.cachedHit e.data.response { e.data.metadata with cached := true },
        cache, []⟩ := by
  rw [ragPOST, if_neg hm]
  dsimp only
  rw [hg]
  dsimp only
  rw [if_pos ht]

theorem ragPOST_recompute_lemma (cache : List (String × CacheEntry))
    (message : String) (conversationHistory : List HistMsg) (now : Nat)
    (embed : Outcome (List ℝ)) (chunks : List Chunk)
    (mainModel searchModel : Nat → Outcome String)
    (hm : message ≠ "")
    (hmiss : cacheGet cache (getCacheKey message) = none ∨
      ∃ e, cacheGet cache (getCacheKey message) = some e ∧
        ¬ now - e.timestamp < CACHE_TTL) :
    ragPOST cache message conversationHistory now embed chunks mainModel
        searchModel =
      ragCompute cache (getCacheKey message) message conversationHistory now
        embed chunks mainModel searchModel := by
  rw [ragPOST, if_neg hm]
  dsimp only
  rcases hmiss with hg | ⟨e, hg, ht⟩
  · rw [hg]
  · rw [hg]
    dsimp only
    rw [if_neg ht]

/-- C6 (amended): the response cache is keyed by the lowercase-trimmed raw
message (not the expanded search query); a stored entry younger than the TTL
is served as-is with `cached: true` and without any search or model action,
leaving the cache unchanged; an entry at or past the TTL is never served;
every pipeline answer overwrites the entry of the key with the fresh timestamp —
so a second request with the same content in different letter case within
the TTL hits the entry the first wrote — BUT the model-failure path with no
retrieved chunks returns the fixed apology without writing the cache. -/
theorem ragPOST_cache_spec (cache : List (String × CacheEntry))
    (message : String) (conversationHistory : List HistMsg) (now : Nat)
    (embed : Outcome (List ℝ)) (chunks : List Chunk)
    (mainModel searchModel : Nat → Outcome String) :
    getCacheKey message = jsTrim (jsToLower message) ∧
    (∀ e, message ≠ "" → cacheGet cache (getCacheKey message) = some e →
      now - e.timestamp < CACHE_TTL →
      ragPOST cache message conversationHistory now embed chunks mainModel
          searchModel =
        ⟨.cachedHit e.data.response { e.data.metadata with cached := true },
          cache, []⟩) ∧
    (∀ e, cacheGet cache (getCacheKey message) = some e →
      CACHE_TTL ≤ now - e.timestamp →
      ∀ m md, (ragPOST cache message conversationHistory now embed chunks
        mainModel searchModel).response ≠ .cachedHit m md) ∧
    (∀ r md, (ragPOST cache message conversationHistory now embed chunks
        mainModel searchModel).response = .answer r md →
      cacheGet (ragPOST cache message conversationHistory now embed chunks
          mainModel searchModel).cache (getCacheKey message) =
        some ⟨⟨r, md⟩, now⟩) ∧
    ((ragPOST cache message conversationHistory now embed chunks mainModel
        searchModel).response =
        .overloadedApology OVERLOADED_MESSAGE "Gemini overloaded" true →
      (ragPOST cache message conversationHistory now embed chunks mainModel
        searchModel).cache = cache) := by
  refine ⟨rfl, ?_, ?_, ?_, ?_⟩
  · intro e hm hg ht
    exact ragPOST_hit_lemma cache message conversationHistory now embed chunks
      mainModel searchModel e hm hg ht
  · intro e hg ht m md
    by_cases hm : message = ""
    · rw [ragPOST, if_pos hm]
      simp
    · rw [ragPOST_recompute_lemma cache message conversationHistory now embed
        chunks mainModel searchModel hm (Or.inr ⟨e, hg, by omega⟩)]
      rcases ragCompute_shape cache (getCacheKey message) message
          conversationHistory now embed chunks mainModel searchModel with
        ⟨r, rmd, tr, hE⟩ | ⟨tr, hE⟩ <;> rw [hE] <;> simp
  · intro r md hresp
    by_cases hm : message = ""
    · rw [ragPOST, if_pos hm] at hresp ⊢
      simp at hresp
    · by_cases hhit : ∃ e, cacheGet cache (getCacheKey message) = some e ∧
          now - e.timestamp < CACHE_TTL
      · obtain ⟨e, hg, ht⟩ := hhit
        rw [ragPOST_hit_lemma cache message conversationHistory now embed
          chunks mainModel searchModel e hm hg ht] at hresp
        simp at hresp
      · have hmiss : cacheGet cache (getCacheKey message) = none ∨
            ∃ e, cacheGet cache (getCacheKey message) = some e ∧
              ¬ now - e.timestamp < CACHE_TTL := by
          cases hg : cacheGet cache (getCacheKey message) with
          | none => exact Or.inl rfl
          | some e =>
            refine Or.inr ⟨e, rfl, ?_⟩
            intro ht
            exact hhit ⟨e, hg, ht⟩
        rw [ragPOST_recompute_lemma cache message conversationHistory now
          embed chunks mainModel searchModel hm hmiss] at hresp ⊢
        rcases ragCompute_shape cache (getCacheKey message) message
            conversationHistory now embed chunks mainModel searchModel with
          ⟨r2, rmd2, tr, hE⟩ | ⟨tr, hE⟩
        · rw [hE] at hresp ⊢
          simp only [RagResponse.answer.injEq] at hresp
          obtain ⟨rfl, rfl⟩ := hresp
          exact cacheGet_cacheSet_self cache (getCacheKey message) _
        · rw [hE] at hresp
          simp at hresp
  · intro hresp
    by_cases hm : message = ""
    · rw [ragPOST, if_pos hm]
    · by_cases hhit : ∃ e, cacheGet cache (getCacheKey message) = some e ∧
          now - e.timestamp < CACHE_TTL
      · obtain ⟨e, hg, ht⟩ := hhit
        rw [ragPOST_hit_lemma cache message conversationHistory now embed
          chunks mainModel searchModel e hm hg ht]
      · have hmiss : cacheGet cache (getCacheKey message) = none ∨
            ∃ e, cacheGet cache (getCacheKey message) = some e ∧
              ¬ now - e.timestamp < CACHE_TTL := by
          cases hg : cacheGet cache (getCacheKey message) with
          | none => exact Or.inl rfl
          | some e =>
            refine Or.inr ⟨e, rfl, ?_⟩
            intro ht
            exact hhit ⟨e, hg, ht⟩
        rw [ragPOST_recompute_lemma cache message conversationHistory now
          embed chunks mainModel searchModel hm hmiss] at hresp ⊢
        rcases ragCompute_shape cache (getCacheKey message) message
            conversationHistory now embed chunks mainModel searchModel with
          ⟨r2, rmd2, tr, hE⟩ | ⟨tr, hE⟩
        · rw [hE] at hresp
          simp at hresp
        · rw [hE]

/-- C6 as written is false on the code: a request that misses the cache and
then loses the model call with no retrieved chunks returns the fixed
overload apology and writes nothing — the recomputed response does NOT
unconditionally overwrite the cache entry. -/
theorem ragPOST_no_overwrite_cex :
    ragPOST [] "hi" [] 0 (.thrown "embed down") []
        (fun _ => .thrown "boom") (fun _ => .ok "unused") =
      ⟨.overloadedApology OVERLOADED_MESSAGE "Gemini overloaded" true, [],
        [.vectorSearch, .keywordFallback, .modelCall]⟩ ∧
    cacheGet
      (ragPOST [] "hi" [] 0 (.thrown "embed down") []
        (fun _ => .thrown "boom") (fun _ => .ok "unused")).cache
      (getCacheKey "hi") = none := by
  constructor
  · rfl
  · rfl

/-- Witness for the amended C6 at a concrete run: a stored fresh entry is
served as a hit, marked cached, with no search or model action. -/
theorem ragPOST_cache_spec_witness :
    ragPOST
        [("hello", ⟨⟨"resp", RagMeta.mk 1 "vector" false false⟩, 0⟩)]
        "HeLLo" [] 1000 (.thrown "unused") [] (fun _ => .ok "unused")
        (fun _ => .ok "unused") =
      ⟨.cachedHit "resp" (RagMeta.mk 1 "vector" true false),
        [("hello", ⟨⟨"resp", RagMeta.mk 1 "vector" false false⟩, 0⟩)], []⟩ :=
  (ragPOST_cache_spec
      [("hello", ⟨⟨"resp", RagMeta.mk 1 "vector" false false⟩, 0⟩)]
      "HeLLo" [] 1000 (.thrown "unused") [] (fun _ => .ok "unused")
      (fun _ => .ok "unused")).2.1
    ⟨⟨"resp", RagMeta.mk 1 "vector" false false⟩, 0⟩
    (by decide) (by decide) (by decide)

end BotBu
